import Mathlib

/-!
Verification development for the AudioDownloader repository.

The definitions below are a shallow embedding of the job-execution core of
the repository:

* src/audiodl/providers/youtube/ytdlp_runner.py  (output-line classification
  and the run_ytdlp control flow),
* src/audiodl/providers/base.py                  (DownloadOptions, ProgressEvent,
  provider registry),
* src/audiodl/core/pipeline.py                   (orchestrator: option building,
  collection flattening, the per-item download loop and its progress proxy).

Python strings are modelled as List Char.  Python's re module is Unicode
aware; the character classes \w, \s and str.lower() are modelled at ASCII
granularity (Char.isAlphanum, Char.isWhitespace, Char.toLower), which is
faithful on every string the program actually manipulates here (tool output
markers, provider identifiers).
-/

abbrev Line := List Char

/-- ASCII model of lowercasing a Python string (str.lower / re.IGNORECASE). -/
def lowerLine (l : Line) : Line := l.map Char.toLower

/-- startsW pat s is true when pat is an initial segment of s
(Python str.startswith / an anchored literal regex). -/
def startsW : Line → Line → Bool
  | [], _ => true
  | _ :: _, [] => false
  | p :: ps, c :: cs => p == c && startsW ps cs

/-- containsL pat s is true when pat occurs as a contiguous substring of s
(re.search of a literal pattern). -/
def containsL (pat : Line) : Line → Bool
  | [] => startsW pat []
  | c :: rest => startsW pat (c :: rest) || containsL pat rest

/-- Model of the regex word class \w (ASCII part): letters, digits, underscore. -/
def isWordChar (c : Char) : Bool := c.isAlphanum || c == '_'

/-- Model of the regex whitespace class \s (ASCII part). -/
def wsChar (c : Char) : Bool := c.isWhitespace

/-- Python str.strip(): drop whitespace from both ends. -/
def stripL (l : Line) : Line := ((l.dropWhile wsChar).reverse.dropWhile wsChar).reverse

/-- Python line.rstrip with a newline argument, as applied to each streamed line
in run_ytdlp: drop trailing newline characters. -/
def rstripNl (l : Line) : Line := (l.reverse.dropWhile (· == '\n')).reverse

/-- Numeric value of a digit string (the integer part of a float literal). -/
def digitsVal (l : Line) : ℕ := l.foldl (fun a c => a * 10 + (c.toNat - '0'.toNat)) 0

/-- Exact value of Python float(ds + "." + fs) for digit strings ds, fs
(fs empty meaning no fractional part).  Modelled over ℚ: every decimal literal
the tool prints has an exact rational value; Python parses the same digit
string deterministically, and which digit string is parsed is what the claims
about progress extraction are about. -/
def decVal (ds fs : Line) : ℚ :=
  mkRat (digitsVal ds * 10 ^ fs.length + digitsVal fs) (10 ^ fs.length)

/-! ## Regexes of ytdlp_runner.py

_PROGRESS_MARK_RE = \bAUDIODL_PROGRESS:(\d+(?:\.\d+)?)\b          (line 36)
_PROGRESS_RE      = \[download\]\s+(\d+(?:\.\d+)?)%               (line 39)
_DEST_RE          = Destination:\s+(.*)$                          (line 41)
_ALREADY_RE       = \[download\].*has already been downloaded  (I) (line 42)
_ARCHIVE_RE       = (already been recorded in the archive|already in archive) (I) (line 43)
_FILE_RE          = ^FILE:\s*(.+)$  (I)                           (line 44)

re.search scans positions left to right and returns the match at the first
position where the whole pattern (with backtracking) succeeds.  The searches
below implement exactly that; backtracking inside \d+(?:\.\d+)? is resolved
in closed form: if the word boundary after the fractional digits fails, the
optional group is dropped (the boundary after the integer digits then holds,
the next character being a dot); no other backtracking can succeed because
shrinking a greedy digit run leaves a digit, a word character, adjacent. -/

def markLit : Line := "AUDIODL_PROGRESS:".data

/-- Match \d+(?:\.\d+)?\b at the start of rest, returning the float value of
the captured group, with regex backtracking resolved as described above. -/
def numTail (rest : Line) : Option ℚ :=
  let ds := rest.takeWhile Char.isDigit
  if ds.isEmpty then none
  else
    match rest.drop ds.length with
    | [] => some (decVal ds [])
    | c :: r2 =>
      if c = '.' then
        let fs := r2.takeWhile Char.isDigit
        if fs.isEmpty then some (decVal ds [])
        else
          match r2.drop fs.length with
          | [] => some (decVal ds fs)
          | d :: _ => if isWordChar d then some (decVal ds []) else some (decVal ds fs)
      else if isWordChar c then none else some (decVal ds [])

/-- One search step of _PROGRESS_MARK_RE at the current position (prev is the
character before the position, for the leading \b; 'A' is a word character). -/
def markAt (prev : Option Char) (s : Line) : Option ℚ :=
  if (match prev with | none => true | some p => !isWordChar p) && startsW markLit s then
    numTail (s.drop markLit.length)
  else none

/-- re.search of _PROGRESS_MARK_RE: the value captured at the first matching
position, scanning left to right. -/
def markSearchAux (prev : Option Char) : Line → Option ℚ
  | [] => none
  | c :: rest => (markAt prev (c :: rest)).orElse fun _ => markSearchAux (some c) rest

def progressMarkSearch (l : Line) : Option ℚ := markSearchAux none l

def dlLit : Line := "[download]".data

/-- Match \s+(\d+(?:\.\d+)?)% at the start of rest (the part of _PROGRESS_RE
after the [download] literal). -/
def fallbackTail (rest : Line) : Option ℚ :=
  let ws := rest.takeWhile wsChar
  if ws.isEmpty then none
  else
    let r1 := rest.drop ws.length
    let ds := r1.takeWhile Char.isDigit
    if ds.isEmpty then none
    else
      match r1.drop ds.length with
      | [] => none
      | c :: r3 =>
        if c = '%' then some (decVal ds [])
        else if c = '.' then
          let fs := r3.takeWhile Char.isDigit
          if fs.isEmpty then none
          else
            match r3.drop fs.length with
            | [] => none
            | d :: _ => if d = '%' then some (decVal ds fs) else none
        else none

/-- re.search of _PROGRESS_RE (the classic yt-dlp progress line fallback). -/
def fallbackSearchAux : Line → Option ℚ
  | [] => none
  | c :: rest =>
    (if startsW dlLit (c :: rest) then fallbackTail ((c :: rest).drop dlLit.length) else none).orElse
      fun _ => fallbackSearchAux rest

def progressFallbackSearch (l : Line) : Option ℚ := fallbackSearchAux l

/-- Progress extraction of run_ytdlp for one line (lines 249-276): the stable
AUDIODL_PROGRESS marker is preferred; the classic [download] NN% line is the
fallback.  Returns the percent value float(m.group(1)). -/
def lineProgressPct (l : Line) : Option ℚ :=
  match progressMarkSearch l with
  | some v => some v
  | none => progressFallbackSearch l

def destLit : Line := "Destination:".data

/-- Match \s+(.*)$ after the Destination: literal: at least one whitespace
character, then the group captures the rest after the maximal whitespace run. -/
def destTail (rest : Line) : Option Line :=
  match rest with
  | [] => none
  | c :: _ => if wsChar c then some (rest.dropWhile wsChar) else none

/-- re.search of _DEST_RE (case sensitive). -/
def destSearchAux : Line → Option Line
  | [] => none
  | c :: rest =>
    (if startsW destLit (c :: rest) then destTail ((c :: rest).drop destLit.length) else none).orElse
      fun _ => destSearchAux rest

def fileLit : Line := "file:".data

/-- re.search of _FILE_RE: anchored ^FILE: (case insensitive), then \s*(.+)$.
The group keeps the original case.  When everything after FILE: is whitespace,
\s* backtracks by one character so that (.+) matches the last whitespace
character (the caller strips the group, so this yields the empty path). -/
def fileSearch (l : Line) : Option Line :=
  if startsW fileLit (lowerLine l) then
    let rest := l.drop fileLit.length
    let r1 := rest.dropWhile wsChar
    if r1.isEmpty then
      match rest.reverse with
      | [] => none
      | c :: _ => some [c]
    else some r1
  else none

def alreadyPhrase : Line := "has already been downloaded".data

/-- re.search of _ALREADY_RE on the lowercased line: a [download] literal
followed, anywhere to its right, by the already-downloaded phrase (the lines
streamed from the process contain no newline, so .* is unconstrained). -/
def alreadySearchAux : Line → Bool
  | [] => false
  | c :: rest =>
    (startsW dlLit (c :: rest) && containsL alreadyPhrase ((c :: rest).drop dlLit.length))
      || alreadySearchAux rest

def alreadySearch (l : Line) : Bool := alreadySearchAux (lowerLine l)

def archPhrase1 : Line := "already been recorded in the archive".data

def archPhrase2 : Line := "already in archive".data

/-- re.search of _ARCHIVE_RE on the lowercased line: either archive-skip
phrasing occurs as a substring. -/
def archiveSearch (l : Line) : Bool :=
  containsL archPhrase1 (lowerLine l) || containsL archPhrase2 (lowerLine l)

/-- Line classification for the already-downloaded flag (ytdlp_runner.py
line 297): _ALREADY_RE or _ARCHIVE_RE matches. -/
def lineAlreadyFlag (l : Line) : Bool := alreadySearch l || archiveSearch l

/-! ## run_ytdlp (ytdlp_runner.py lines 142-331)

The runner is effectful: it spawns a process, iterates its merged output
stream line by line and emits progress through a callback.  The embedding
makes the effects explicit:

* startOk   - whether subprocess.Popen succeeds (false models a missing
              binary / permission error: the OSError propagates out of
              run_ytdlp, there is no try around _popen);
* outLines  - the lines read from the merged stdout/stderr stream;
* rc        - the exit status returned by proc.wait();
* cancelAt  - the value of cancel_event.is_set() at the check performed on
              the i-th streamed line (i counted from 0).  A cancel_event of
              None, or one whose is_set raises, never reports cancellation
              and is modelled by the constantly false function;
* the progress callback becomes an accumulated list of emitted events.

_request_stop only signals the OS process tree and returns nothing; it has
no footprint in the returned data beyond the break it precedes. -/

/-- One emitted progress event per emit_progress call site of run_ytdlp.
The human-readable Spanish message strings are abbreviated to the
constructor; the phase and the numeric progress value are kept exactly.
downloadPct carries the parsed percent; the event's progress value in the
source is pct / 100. -/
inductive RunnerEvent where
  | starting
  | cancelling
  | downloadPct (pct : ℚ)
  | postproc (line : Line)
  | cancelledNote
  | completed
deriving DecidableEq, Repr

/-- Mutable loop state of run_ytdlp (lines 219-222 plus the emitted events). -/
structure ScanState where
  rawLines : List Line := []
  outputPaths : List Line := []
  alreadyDownloaded : Bool := false
  cancelled : Bool := false
  events : List RunnerEvent := []
deriving DecidableEq, Repr

def extractAudioLit : Line := "[ExtractAudio]".data

def ffmpegLit : Line := "[ffmpeg]".data

/-- Body of the reading loop for one (already newline-stripped) line that was
not interrupted by cancellation: progress extraction (stable marker preferred,
classic line as fallback), Destination and FILE path capture, the
already-downloaded flag, and forwarding of post-processing lines
(ytdlp_runner.py lines 249-302). -/
def processLine (line : Line) (st : ScanState) : ScanState :=
  let st :=
    match lineProgressPct line with
    | some pct => { st with events := st.events ++ [RunnerEvent.downloadPct pct] }
    | none => st
  let st :=
    match destSearchAux line with
    | some g =>
      let p := stripL g
      if p.isEmpty then st else { st with outputPaths := st.outputPaths ++ [p] }
    | none => st
  let st :=
    match fileSearch line with
    | some g =>
      let p := stripL g
      if p.isEmpty then st else { st with outputPaths := st.outputPaths ++ [p] }
    | none => st
  let st :=
    if lineAlreadyFlag line then { st with alreadyDownloaded := true } else st
  if startsW extractAudioLit line || startsW ffmpegLit line then
    { st with events := st.events ++ [RunnerEvent.postproc line] }
  else st

/-- The reading loop (for line in proc.stdout, lines 225-302): each line is
newline-stripped and recorded in raw_lines, then the cancellation flag is
polled; a signalled cancellation emits the cancelling event, stops the
process tree and breaks out; otherwise the line is classified. -/
def scanLoop (cancelAt : ℕ → Bool) : ℕ → List Line → ScanState → ScanState
  | _, [], st => st
  | i, l :: ls, st =>
    let line := rstripNl l
    let st := { st with rawLines := st.rawLines ++ [line] }
    if cancelAt i then
      { st with cancelled := true, events := st.events ++ [RunnerEvent.cancelling] }
    else scanLoop cancelAt (i + 1) ls (processLine line st)

/-- Result dataclass YtDlpRunResult (ytdlp_runner.py lines 47-53). -/
structure YtDlpRunResult where
  exit_code : Int
  output_paths : List Line
  raw_lines : List Line
  already_downloaded : Bool
  cancelled : Bool
deriving DecidableEq, Repr

/-- Errors escaping run_ytdlp: startFailure models the OSError propagating
from subprocess.Popen (binary missing, permission denied); ytdlpFailed models
the ProviderError raised at line 321, whose message carries the exit code and
the last 30 captured lines. -/
inductive RunError where
  | startFailure
  | ytdlpFailed (rc : Int) (tail : List Line)
deriving DecidableEq, Repr

/-- Order-preserving de-duplication, list(dict.fromkeys(output_paths))
(line 307): keep the first occurrence of each path. -/
def dedupAux (seen : List Line) : List Line → List Line
  | [] => []
  | x :: xs => if seen.contains x then dedupAux seen xs else x :: dedupAux (x :: seen) xs

def dedupKeepFirst (l : List Line) : List Line := dedupAux [] l

/-- Python l[-n:]. -/
def lastN (n : ℕ) (l : List Line) : List Line := l.drop (l.length - n)

/-- Initial state of the reading loop: the starting event has already been
emitted (line 164, before the process is spawned). -/
def initScanState : ScanState := { events := [RunnerEvent.starting] }

/-- Shallow embedding of run_ytdlp: the emitted events paired with either the
returned YtDlpRunResult or the raised error.  Control flow of lines 304-331:
after the loop, a run that observed cancellation returns a result flagged
cancelled with whatever exit status proc.wait() yielded; otherwise a non-zero
exit raises ProviderError and a zero exit returns the result. -/
def run_ytdlp (startOk : Bool) (outLines : List Line) (rc : Int) (cancelAt : ℕ → Bool) :
    List RunnerEvent × Except RunError YtDlpRunResult :=
  if !startOk then ([RunnerEvent.starting], .error .startFailure)
  else
    let st := scanLoop cancelAt 0 outLines initScanState
    let deduped := dedupKeepFirst st.outputPaths
    if st.cancelled then
      (st.events ++ [RunnerEvent.cancelledNote],
       .ok { exit_code := rc, output_paths := deduped, raw_lines := st.rawLines,
             already_downloaded := st.alreadyDownloaded, cancelled := true })
    else if rc != 0 then
      (st.events, .error (.ytdlpFailed rc (lastN 30 st.rawLines)))
    else
      (st.events ++ [RunnerEvent.completed],
       .ok { exit_code := rc, output_paths := deduped, raw_lines := st.rawLines,
             already_downloaded := st.alreadyDownloaded, cancelled := false })

/-- Constantly-false cancellation oracle: a cancel_event that is None or never
set. -/
def noCancel : ℕ → Bool := fun _ => false

/-! ## Provider registry (providers/base.py lines 130-181)

The module-level dict _PROVIDER_REGISTRY is modelled as an explicit
association list in insertion order (Python dicts preserve insertion order);
the mutating register_provider is modelled state-passing, returning the
outcome together with the post-call registry.  A provider is its stable
identifier together with its can_handle predicate; can_handle returning
none models the predicate raising an exception. -/

structure Provider where
  id : String
  canHandle : String → Option Bool

abbrev Registry := List (String × Provider)

/-- provider.id.strip().lower() (base.py line 145) and the same normalization
applied by get_provider to its argument (line 159).  Python strips and lowers
over Unicode; identifiers here are ASCII and the ASCII model is exact. -/
def normId (s : String) : String := ⟨lowerLine (stripL s.data)⟩

/-- Membership of a key among the registry keys (pid in _PROVIDER_REGISTRY). -/
def hasKey : List String → String → Bool
  | [], _ => false
  | k :: ks, pid => if k = pid then true else hasKey ks pid

inductive RegisterError where
  | emptyId
  | duplicate (pid : String)
deriving DecidableEq, Repr

/-- register_provider (base.py lines 139-150): normalize the identifier,
reject an empty one (ValueError), reject an already-present one (the
duplicate-provider ValueError) leaving the registry untouched, else append. -/
def register_provider (reg : Registry) (p : Provider) : Except RegisterError Unit × Registry :=
  let pid := normId p.id
  if pid = "" then (.error .emptyId, reg)
  else if hasKey (reg.map Prod.fst) pid then (.error (.duplicate pid), reg)
  else (.ok (), reg ++ [(pid, p)])

/-- Lexicographic order on strings by code point, Python's str comparison
used by sorted(). -/
def lexLe : Line → Line → Bool
  | [], _ => true
  | _ :: _, [] => false
  | c :: cs, d :: ds =>
    if c.toNat < d.toNat then true
    else if d.toNat < c.toNat then false
    else lexLe cs ds

/-- sorted(_PROVIDER_REGISTRY): the registry keys in ascending order. -/
def sortKeys (reg : Registry) : List String :=
  List.insertionSort (fun a b => lexLe a.data b.data) (reg.map Prod.fst)

inductive LookupError where
  | unknown (provider_id : String) (registered : List String)
deriving DecidableEq, Repr

/-- Dict lookup by exact key, first (unique) match. -/
def lookupReg : Registry → String → Option Provider
  | [], _ => none
  | (k, p) :: rest, pid => if k = pid then some p else lookupReg rest pid

/-- get_provider (base.py lines 158-163): normalize the argument exactly as
registration normalized the stored key; a missing key raises a KeyError whose
message carries the requested id and the sorted registered identifiers. -/
def get_provider (reg : Registry) (provider_id : String) : Except LookupError Provider :=
  match lookupReg reg (normId provider_id) with
  | some p => .ok p
  | none => .error (.unknown provider_id (sortKeys reg))

inductive FindError where
  | noProvider (registered : List String)
deriving Repr

/-- The selection loop of find_provider_for_source: first provider in
registration order whose can_handle returns True; a raising can_handle
(modelled none) or a False is skipped and the search continues. -/
def findAux (source : String) : Registry → Option Provider
  | [] => none
  | (_, p) :: rest =>
    match p.canHandle source with
    | some true => some p
    | _ => findAux source rest

/-- find_provider_for_source (base.py lines 166-181): first applicable
provider, else a ProviderError whose message lists the sorted registered
identifiers (or a '(none)' placeholder, subsumed by the empty list). -/
def find_provider_for_source (reg : Registry) (source : String) : Except FindError Provider :=
  match findAux source reg with
  | some p => .ok p
  | none => .error (.noProvider (sortKeys reg))

/-! ## Pipeline orchestrator (core/pipeline.py)

Pipeline.run builds one DownloadOptions from the request and hands it to
every item download.  DownloadOptions in providers/base.py (lines 51-63) is
a frozen dataclass with exactly seven fields; Pipeline.run (lines 56-73)
calls its constructor with fourteen keyword arguments.  Python binds keyword
arguments by name and raises TypeError on any name that is not a field, so
the keyword binding is embedded explicitly. -/

/-- Field names of the DownloadOptions dataclass, providers/base.py
lines 51-63, in declaration order. -/
def downloadOptionsFieldNames : List String :=
  ["output_dir", "audio_format", "audio_quality", "overwrite",
   "cookies_path", "ffmpeg_path", "tmp_dir"]

/-- Keyword-argument names passed to DownloadOptions by Pipeline.run,
core/pipeline.py lines 56-73, in source order. -/
def pipelineRunOptionKwargs : List String :=
  ["output_dir", "audio_format", "audio_quality", "overwrite",
   "cookies_path", "ffmpeg_path", "tmp_dir",
   "use_archive", "archive_path", "loudnorm", "embed_thumbnail",
   "parse_metadata_artist_title", "strip_emojis", "cancel_event"]

inductive PyError where
  | typeErrorUnexpectedKwarg (name : String)
deriving DecidableEq, Repr

/-- Python keyword binding for a dataclass constructor: the call succeeds
exactly when every keyword names a field; otherwise TypeError reports an
unexpected keyword argument. -/
def callDownloadOptionsCtor (kwargs : List String) : Except PyError Unit :=
  match kwargs.find? (fun k => !(downloadOptionsFieldNames.contains k)) with
  | some k => .error (.typeErrorUnexpectedKwarg k)
  | none => .ok ()

/-- The options-building step of Pipeline.run (lines 56-73). -/
def pipelineBuildOptions : Except PyError Unit :=
  callDownloadOptionsCtor pipelineRunOptionKwargs

/-- ProgressEvent, the frozen dataclass of providers/base.py lines 66-75.
Every event flowing through the core is constructed by emit_progress from
this class. -/
structure ProgressEvent where
  provider_id : String
  phase : String
  message : String
  progress : Option ℚ := none
deriving DecidableEq, Repr

/-- Clamp of the local fraction, p = max(0.0, min(1.0, p)) (pipeline.py
line 176). -/
def clamp01 (p : ℚ) : ℚ := max 0 (min 1 p)

/-- ProgressEvent in providers/base.py is a plain frozen stdlib dataclass: it
has no model_copy method (that is a pydantic method).  The attribute lookup
ev.model_copy in the progress proxy therefore raises AttributeError. -/
def progressEventHasModelCopy : Bool := false

/-- The per-item progress proxy of Pipeline._download_collection
(pipeline.py lines 172-181), as the transformation applied to the event it
forwards to the caller's callback.  The try block computes the clamped,
remapped global fraction ((idx - 1) + p) / total, but assigns it through
ev.model_copy, which does not exist on the dataclass event
(progressEventHasModelCopy); the AttributeError is swallowed by the bare
except and the event is forwarded unchanged. -/
def progress_proxy (idx total : ℕ) (ev : ProgressEvent) : ProgressEvent :=
  match ev.progress with
  | none => ev
  | some p0 =>
    let p := clamp01 p0
    if progressEventHasModelCopy then
      { ev with progress := some (((idx : ℚ) - 1 + p) / (total : ℚ)) }
    else ev

/-- The remap expression written in the dead branch of the proxy (pipeline.py
line 177), the mapping the surrounding comment documents: local fraction p of
item idx of total items becomes ((idx - 1) + clamp(p)) / total. -/
def intendedRemap (idx total : ℕ) (p : ℚ) : ℚ := ((idx : ℚ) - 1 + clamp01 p) / (total : ℚ)

/-- Track of core/models.py restricted to the fields the orchestrator loop
reads (title for the result, url/source as the download input); the remaining
resolved-metadata fields (duration, thumbnail, artist, album, meta, ...) are
never touched by pipeline.py and are elided. -/
structure TrackM where
  title : String
  source : String
  url : Option String := none
deriving DecidableEq, Repr

/-- MediaItem = Track | Collection (core/models.py): a collection owns an
ordered list of child items, possibly nested. -/
inductive MediaItemM where
  | track (t : TrackM)
  | collection (title : String) (entries : List MediaItemM)

/-- Per-item download result as consumed by the orchestrator loop
(CoreDownloadResult); its construction by _download_track from the provider
result is opaque to the loop and is abstracted by the dl argument below. -/
structure CoreResult where
  provider_id : String
  item_title : String
  files : List String
  warnings : List String
deriving DecidableEq, Repr

mutual

/-- The _collect closure of Pipeline._download_collection (pipeline.py
lines 155-162): depth-first flattening of a resolved item into its tracks,
in order, nested collections expanded in place. -/
def collectTracks : MediaItemM → List TrackM
  | .track t => [t]
  | .collection _ es => collectTracksList es

def collectTracksList : List MediaItemM → List TrackM
  | [] => []
  | e :: es => collectTracks e ++ collectTracksList es

end

/-- The item loop of Pipeline._download_collection (lines 167-183): idx runs
from 1 (enumerate start=1); before each item the cancellation flag is polled
(cancelAt idx models self._is_cancelled() at that check) and a signalled
cancellation breaks out, returning the results accumulated so far; otherwise
the item is downloaded (dl idx total t abstracts _download_track with the
idx/total-closing progress proxy) and its result appended. -/
def downloadLoop (cancelAt : ℕ → Bool) (dl : ℕ → ℕ → TrackM → CoreResult) (total : ℕ) :
    ℕ → List TrackM → List CoreResult
  | _, [] => []
  | idx, t :: ts =>
    if cancelAt idx then []
    else dl idx total t :: downloadLoop cancelAt dl total (idx + 1) ts

/-- Pipeline._download_collection (pipeline.py lines 151-185): flatten the
collection to tracks, fix total = max(1, len(tracks)) for the progress math,
then run the sequential loop. -/
def download_collection (cancelAt : ℕ → Bool) (dl : ℕ → ℕ → TrackM → CoreResult)
    (col : MediaItemM) : List CoreResult :=
  let tracks := collectTracks col
  downloadLoop cancelAt dl (max 1 tracks.length) 1 tracks

/-- Downloads of the first k tracks, in order, with their 1-based indices:
the reference value for the cancellation theorem. -/
def mapIdxFrom (dl : ℕ → ℕ → TrackM → CoreResult) (total : ℕ) : ℕ → List TrackM → List CoreResult
  | _, [] => []
  | idx, t :: ts => dl idx total t :: mapIdxFrom dl total (idx + 1) ts

/-- Modelled from the spec's words for the refinement comparison of the
multiple-marker policy ("multiple percent markers on one line → last one
wins"): the values of the stable marker at every position where
_PROGRESS_MARK_RE matches, left to right. -/
def markValuesAux (prev : Option Char) : Line → List ℚ
  | [] => []
  | c :: rest => (markAt prev (c :: rest)).toList ++ markValuesAux (some c) rest

/-- Modelled from the spec's words: the percent value of the last
progress-percent marker on the line. -/
def lastMarkerPct (l : Line) : Option ℚ := (markValuesAux none l).getLast?

/-- The per-position match of _PROGRESS_RE: the fallback pattern matched at
the current position (the first operand of one search step of
fallbackSearchAux, named so the search can be related to the list of all
matches). -/
def fallbackAt (s : Line) : Option ℚ :=
  if startsW dlLit s then fallbackTail (s.drop dlLit.length) else none

/-- Fallback counterpart of markValuesAux: the values of the classic
[download] percent marker at every position where _PROGRESS_RE matches, left
to right. -/
def fallbackValuesAux : Line → List ℚ
  | [] => []
  | c :: rest => (fallbackAt (c :: rest)).toList ++ fallbackValuesAux rest

/-! ## Concrete instances used by the witnesses -/

/-- Progress event with a local fraction of one half, as a provider emits
mid-download. -/
def evHalf : ProgressEvent :=
  { provider_id := "youtube", phase := "download", message := "Descargando…",
    progress := some (1/2) }

/-- Progress event carrying an out-of-range local fraction. -/
def evOver : ProgressEvent :=
  { provider_id := "youtube", phase := "download", message := "Descargando…",
    progress := some (3/2) }

/-- A resolved collection of three tracks, one nested one level deep. -/
def colW : MediaItemM :=
  .collection "mix"
    [.track { title := "a", source := "s1" },
     .collection "inner" [.track { title := "b", source := "s2" }],
     .track { title := "c", source := "s3" }]

/-- A concrete per-item download function. -/
def dlW : ℕ → ℕ → TrackM → CoreResult :=
  fun _ _ t => { provider_id := "yt", item_title := t.title, files := [], warnings := [] }

/-- A cancellation oracle first observed set at the check before item 2. -/
def cAtW : ℕ → Bool := fun j => decide (2 ≤ j)

def provA : Provider := { id := "a", canHandle := fun _ => none }

def provB : Provider := { id := "b", canHandle := fun _ => some true }

def provF : Provider := { id := "f", canHandle := fun _ => some false }

def provY : Provider := { id := "YouTube", canHandle := fun _ => some true }

def provY2 : Provider := { id := " YOUTUBE ", canHandle := fun _ => some false }

def provY3 : Provider := { id := "Youtube", canHandle := fun _ => none }

def c8pre : Line := "[download] x ".data

def c8mid : Line := "Already BEEN Recorded In The Archive".data

def c8post : Line := " (skipping)".data

def c8line : Line := c8pre ++ c8mid ++ c8post

/-! ## Helper lemmas -/

theorem startsW_append_self (p r : Line) : startsW p (p ++ r) = true := by
  induction p with
  | nil => rfl
  | cons c ps ih => simp [startsW, ih]

theorem containsL_of_startsW (pat s : Line) (h : startsW pat s = true) :
    containsL pat s = true := by
  cases s with
  | nil => simpa [containsL] using h
  | cons c r => simp [containsL, h]

theorem containsL_append_self (pat a b : Line) : containsL pat (a ++ (pat ++ b)) = true := by
  induction a with
  | nil => exact containsL_of_startsW pat (pat ++ b) (startsW_append_self pat b)
  | cons c a' ih => simp [containsL, ih]

theorem takeWhile_append_cons {f : Char → Bool} {sep : Char} (hs : f sep = false) :
    ∀ (v t : Line), (∀ c ∈ v, f c = true) → (v ++ sep :: t).takeWhile f = v
  | [], t, _ => by simp [List.takeWhile_cons, hs]
  | c :: v', t, hv => by
    have hc : f c = true := hv c (List.mem_cons_self _ _)
    simp only [List.cons_append, List.takeWhile_cons, hc, if_true]
    rw [takeWhile_append_cons hs v' t fun a ha => hv a (List.mem_cons_of_mem _ ha)]

theorem numTail_digits_sep {v : Line} (t : Line) (hne : v ≠ [])
    (hv : ∀ c ∈ v, c.isDigit = true) : numTail (v ++ ' ' :: t) = some (decVal v []) := by
  have hv0 : v.isEmpty = false := by cases v with | nil => exact absurd rfl hne | cons a l => rfl
  have hsep : Char.isDigit ' ' = false := by decide
  simp only [numTail, takeWhile_append_cons hsep v t hv, hv0, Bool.false_eq_true, if_false,
    List.drop_left]
  simp [isWordChar]

theorem markSearch_head {x : Line} {q : ℚ} (h : numTail x = some q) :
    progressMarkSearch (markLit ++ x) = some q := by
  have hcons : markLit ++ x = 'A' :: ("UDIODL_PROGRESS:".data ++ x) := rfl
  have hm : markAt none (markLit ++ x) = some q := by
    simp only [markAt, startsW_append_self, Bool.and_true, List.drop_left]
    exact h
  rw [progressMarkSearch, hcons]
  simp only [markSearchAux]
  rw [← hcons, hm]
  rfl

/-! ## Additional helper lemmas for the claim theorems -/

theorem downloadLoop_take (cancelAt : ℕ → Bool) (dl : ℕ → ℕ → TrackM → CoreResult) (total : ℕ) :
    ∀ (ts : List TrackM) (idx k : ℕ), k ≤ ts.length →
      (∀ j, idx ≤ j → j < idx + k → cancelAt j = false) →
      (k < ts.length → cancelAt (idx + k) = true) →
      downloadLoop cancelAt dl total idx ts = mapIdxFrom dl total idx (ts.take k)
  | [], idx, k, hk, _, _ => by
    simp only [List.length_nil, Nat.le_zero] at hk
    subst hk
    rfl
  | t :: ts, idx, 0, hk, hb, hc => by
    have h0 : cancelAt idx = true := by simpa using hc (by simp)
    simp [downloadLoop, h0, mapIdxFrom]
  | t :: ts, idx, k + 1, hk, hb, hc => by
    have h0 : cancelAt idx = false := hb idx le_rfl (by omega)
    simp only [downloadLoop, h0, Bool.false_eq_true, if_false, List.take_succ_cons, mapIdxFrom]
    congr 1
    refine downloadLoop_take cancelAt dl total ts (idx + 1) k (by simpa using hk)
      (fun j hj1 hj2 => hb j (by omega) (by omega)) (fun hlt => ?_)
    rw [show idx + 1 + k = idx + (k + 1) from by omega]
    exact hc (by simpa using hlt)

theorem findAux_none (source : String) : ∀ (reg : Registry),
    (∀ pr ∈ reg, (Prod.snd pr).canHandle source ≠ some true) → findAux source reg = none
  | [], _ => rfl
  | (k, p) :: rest, h => by
    have hp : p.canHandle source ≠ some true := h (k, p) (List.mem_cons_self _ _)
    have hr := findAux_none source rest fun pr hpr => h pr (List.mem_cons_of_mem _ hpr)
    cases hcp : p.canHandle source with
    | none => simpa [findAux, hcp] using hr
    | some b =>
      cases b with
      | false => simpa [findAux, hcp] using hr
      | true => exact absurd hcp hp

theorem register_ok_inv {reg reg' : Registry} {p : Provider}
    (h : register_provider reg p = (.ok (), reg')) :
    normId p.id ≠ "" ∧ hasKey (reg.map Prod.fst) (normId p.id) = false ∧
      reg' = reg ++ [(normId p.id, p)] := by
  by_cases h1 : normId p.id = ""
  · simp [register_provider, h1] at h
  · by_cases h2 : hasKey (reg.map Prod.fst) (normId p.id) = true
    · simp [register_provider, h1, h2] at h
    · have h2' : hasKey (reg.map Prod.fst) (normId p.id) = false := by simpa using h2
      refine ⟨h1, h2', ?_⟩
      simp [register_provider, h1, h2'] at h
      exact h.symm

theorem hasKey_append_last : ∀ (ks : List String) (k : String), hasKey (ks ++ [k]) k = true
  | [], k => by simp [hasKey]
  | k' :: ks, k => by
    by_cases h : k' = k
    · simp [hasKey, h]
    · simp [hasKey, h, hasKey_append_last ks k]

theorem lookupReg_append_fresh : ∀ (reg : Registry) (pid : String) (p : Provider),
    hasKey (reg.map Prod.fst) pid = false → lookupReg (reg ++ [(pid, p)]) pid = some p
  | [], pid, p, _ => by simp [lookupReg]
  | (k, q) :: rest, pid, p, h => by
    have hk : ¬(k = pid) := by
      intro hkp
      simp [hasKey, hkp] at h
    simp only [List.cons_append, lookupReg, if_neg hk]
    refine lookupReg_append_fresh rest pid p ?_
    simpa [hasKey, hk] using h

theorem register_duplicate_of_ok {reg reg' : Registry} {p q : Provider}
    (h : register_provider reg p = (.ok (), reg')) (hq : normId q.id = normId p.id) :
    register_provider reg' q = (.error (.duplicate (normId q.id)), reg') := by
  obtain ⟨h1, h2, h3⟩ := register_ok_inv h
  subst h3
  have hne : normId q.id ≠ "" := by rw [hq]; exact h1
  have hdup : hasKey (reg.map Prod.fst ++ [normId p.id]) (normId q.id) = true := by
    rw [hq]
    exact hasKey_append_last _ _
  simp [register_provider, hne, hdup]

theorem markSearch_eq_head (prev : Option Char) : ∀ l : Line,
    markSearchAux prev l = (markValuesAux prev l).head?
  | [] => rfl
  | c :: rest => by
    cases hm : markAt prev (c :: rest) with
    | none =>
      simp only [markSearchAux, markValuesAux, hm, Option.orElse, Option.toList,
        List.nil_append]
      exact markSearch_eq_head (some c) rest
    | some v =>
      simp [markSearchAux, markValuesAux, hm, Option.orElse, Option.toList]

theorem fallback_eq_head : ∀ l : Line, fallbackSearchAux l = (fallbackValuesAux l).head?
  | [] => rfl
  | c :: rest => by
    cases hs : startsW dlLit (c :: rest) with
    | false =>
      simp only [fallbackSearchAux, fallbackValuesAux, fallbackAt, hs, Bool.false_eq_true,
        if_false, Option.orElse, Option.toList, List.nil_append]
      exact fallback_eq_head rest
    | true =>
      cases hf : fallbackTail ((c :: rest).drop dlLit.length) with
      | none =>
        simp only [fallbackSearchAux, fallbackValuesAux, fallbackAt, hs, if_true, hf,
          Option.orElse, Option.toList, List.nil_append]
        exact fallback_eq_head rest
      | some v =>
        simp [fallbackSearchAux, fallbackValuesAux, fallbackAt, hs, hf, Option.orElse]

/-! ## Claim theorems -/

/-- Claim C1, counterexample: with the process started (startOk true), an
empty output stream, exit status 1 and no cancellation, run_ytdlp raises the
ProviderError carrying the exit code instead of returning a result carrying
exit status 1 — refuting the claim that a non-zero exit without cancellation
is reported as a returned JobResult. -/
theorem C1_counterexample : run_ytdlp true [] 1 noCancel =
    ([RunnerEvent.starting], .error (.ytdlpFailed 1 [])) := rfl

/-- Claim C1, amended: a result is returned exactly for a zero exit or an
observed cancellation, and it carries the exit status proc.wait() yielded; a
non-zero exit without observed cancellation raises the ProviderError carrying
that exit code and the last captured lines; a start failure propagates as an
error. -/
theorem C1_amended :
    (∀ (outLines : List Line) (rc : Int) (cancelAt : ℕ → Bool) (evs : List RunnerEvent)
        (res : YtDlpRunResult),
      run_ytdlp true outLines rc cancelAt = (evs, .ok res) →
      res.exit_code = rc ∧ (rc = 0 ∨ res.cancelled = true)) ∧
    (∀ (outLines : List Line) (rc : Int) (cancelAt : ℕ → Bool),
      rc ≠ 0 → (scanLoop cancelAt 0 outLines initScanState).cancelled = false →
      (run_ytdlp true outLines rc cancelAt).2 =
        .error (.ytdlpFailed rc (lastN 30 (scanLoop cancelAt 0 outLines initScanState).rawLines))) ∧
    (∀ (outLines : List Line) (rc : Int) (cancelAt : ℕ → Bool),
      (run_ytdlp false outLines rc cancelAt).2 = .error .startFailure) := by
  refine ⟨?_, ?_, ?_⟩
  · intro L rc cAt evs res h
    simp only [run_ytdlp, Bool.not_true, Bool.false_eq_true, if_false] at h
    by_cases hc : (scanLoop cAt 0 L initScanState).cancelled
    · rw [if_pos hc] at h
      injection h with h1 h2
      injection h2 with h3
      subst h3
      exact ⟨rfl, Or.inr rfl⟩
    · rw [if_neg hc] at h
      by_cases hr : rc = 0
      · subst hr
        simp only [bne_self_eq_false, Bool.false_eq_true, if_false] at h
        injection h with h1 h2
        injection h2 with h3
        subst h3
        exact ⟨rfl, Or.inl rfl⟩
      · have hb : (rc != 0) = true := by simpa using hr
        rw [if_pos hb] at h
        injection h with h1 h2
        exact absurd h2 (by simp)
  · intro L rc cAt hr hc
    have hb : (rc != 0) = true := by simpa using hr
    simp only [run_ytdlp, Bool.not_true, Bool.false_eq_true, if_false, hc, hb, if_true]
  · intro L rc cAt
    rfl

/-- Claim C1, witness: the amended theorem applied to a cancelled run with
exit status 7 (result returned, carrying 7) and to an uncancelled run with
exit status 1 (error raised). -/
theorem C1_witness :
    ((YtDlpRunResult.mk 7 [] [['a']] false true).exit_code = 7 ∧
      ((7 : Int) = 0 ∨ (YtDlpRunResult.mk 7 [] [['a']] false true).cancelled = true)) ∧
    (run_ytdlp true [] 1 noCancel).2 =
      .error (.ytdlpFailed 1 (lastN 30 (scanLoop noCancel 0 [] initScanState).rawLines)) := by
  constructor
  · exact C1_amended.1 [['a']] 7 (fun _ => true)
      [RunnerEvent.starting, RunnerEvent.cancelling, RunnerEvent.cancelledNote] _ rfl
  · exact C1_amended.2.1 [] 1 noCancel (by decide) rfl

/-- Claim C2: Pipeline.run cannot construct the DownloadOptions value at all.
The DownloadOptions dataclass of providers/base.py has only the seven basic
fields, while Pipeline.run passes fourteen keyword arguments; keyword binding
raises TypeError on the first unexpected name, use_archive, on every run.
The ctor does accept its own field list, so the failure is exactly the seven
extra keywords. -/
theorem C2_theorem :
    pipelineBuildOptions = .error (.typeErrorUnexpectedKwarg "use_archive") ∧
    pipelineRunOptionKwargs.contains "use_archive" = true ∧
    downloadOptionsFieldNames.contains "use_archive" = false ∧
    callDownloadOptionsCtor downloadOptionsFieldNames = .ok () :=
  ⟨rfl, rfl, rfl, rfl⟩

/-- Claim C3, counterexample: on a line carrying two stable progress markers
with values 10 and 90, the extraction used by run_ytdlp (re.search, first
match) yields 10, while the last marker on the line carries 90 — refuting
the claim that the last marker wins. -/
theorem C3_counterexample :
    lineProgressPct "AUDIODL_PROGRESS:10 AUDIODL_PROGRESS:90".data = some 10 ∧
    lastMarkerPct "AUDIODL_PROGRESS:10 AUDIODL_PROGRESS:90".data = some 90 ∧
    (10 : ℚ) ≠ 90 :=
  ⟨by decide, by decide, by norm_num⟩

/-- Claim C3, amended: for every output line the percent value extracted and
emitted is the one from the first (leftmost) progress-percent marker on the
line, never the last.  Each search equals the head of the list of all its
marker values on the line (the same list whose last element defines
lastMarkerPct), and the extraction is the first stable-marker value whenever
any stable marker is present, else the first classic-marker value — so on
every line with more than one marker of either kind, the first one wins. -/
theorem C3_amended :
    (∀ l : Line, progressMarkSearch l = (markValuesAux none l).head?) ∧
    (∀ l : Line, progressFallbackSearch l = (fallbackValuesAux l).head?) ∧
    (∀ l : Line, markValuesAux none l ≠ [] →
      lineProgressPct l = (markValuesAux none l).head?) ∧
    (∀ l : Line, markValuesAux none l = [] →
      lineProgressPct l = (fallbackValuesAux l).head?) := by
  refine ⟨fun l => markSearch_eq_head none l, fun l => fallback_eq_head l, ?_, ?_⟩
  · intro l h
    obtain ⟨v, hv⟩ : ∃ v, (markValuesAux none l).head? = some v := by
      cases hl : markValuesAux none l with
      | nil => exact absurd hl h
      | cons a t => exact ⟨a, rfl⟩
    have hm : progressMarkSearch l = some v := (markSearch_eq_head none l).trans hv
    unfold lineProgressPct
    rw [hm, hv]
  · intro l h
    have hm : progressMarkSearch l = none := by
      unfold progressMarkSearch
      rw [markSearch_eq_head none l, h]
      rfl
    unfold lineProgressPct
    rw [hm]
    exact fallback_eq_head l

/-- Claim C3, witness: the amended theorem applied to a line with two stable
markers (10 before 90, extraction yields 10) and to a line with two classic
markers and no stable one (again the first value, 10, wins). -/
theorem C3_witness :
    lineProgressPct "AUDIODL_PROGRESS:10 AUDIODL_PROGRESS:90".data =
      (markValuesAux none "AUDIODL_PROGRESS:10 AUDIODL_PROGRESS:90".data).head? ∧
    (markValuesAux none "AUDIODL_PROGRESS:10 AUDIODL_PROGRESS:90".data).head? = some 10 ∧
    lineProgressPct "[download] 10% [download] 90%".data =
      (fallbackValuesAux "[download] 10% [download] 90%".data).head? ∧
    (fallbackValuesAux "[download] 10% [download] 90%".data).head? = some 10 := by
  refine ⟨C3_amended.2.2.1 _ (by decide), by decide, C3_amended.2.2.2 _ (by decide), by decide⟩

/-- Claim C4: the remap is never applied.  The progress proxy of
Pipeline._download_collection forwards the event unchanged (the assignment
goes through model_copy, absent on the dataclass event, and the
AttributeError is swallowed), so for item 2 of 2 at local fraction one half
the forwarded fraction stays one half, while the remap expression written in
the dead branch (and claimed by the spec) yields three quarters. -/
theorem C4_theorem :
    progress_proxy 2 2 evHalf = evHalf ∧
    evHalf.progress = some (1/2 : ℚ) ∧
    intendedRemap 2 2 (1/2) = 3/4 ∧
    (1/2 : ℚ) ≠ 3/4 :=
  ⟨rfl, rfl, by norm_num [intendedRemap, clamp01], by norm_num⟩

/-- Claim C5: in the collection loop the cancellation flag is polled before
each item; if the checks before items 1..k observe no cancellation and the
check before item k+1 observes one (or the list ends at k), exactly the first
k items are downloaded, in order, and their accumulated results are returned
rather than discarded. -/
theorem C5_theorem (cancelAt : ℕ → Bool) (dl : ℕ → ℕ → TrackM → CoreResult) (col : MediaItemM)
    (k : ℕ) (hk : k ≤ (collectTracks col).length)
    (hb : ∀ j, 1 ≤ j → j < 1 + k → cancelAt j = false)
    (hc : k < (collectTracks col).length → cancelAt (1 + k) = true) :
    download_collection cancelAt dl col =
      mapIdxFrom dl (max 1 (collectTracks col).length) 1 ((collectTracks col).take k) :=
  downloadLoop_take cancelAt dl _ _ 1 k hk hb hc

/-- Claim C5, witness: a three-track collection (one track nested) with
cancellation first observed at the check before item 2 returns exactly the
result of item 1. -/
theorem C5_witness :
    download_collection cAtW dlW colW =
      mapIdxFrom dlW (max 1 (collectTracks colW).length) 1 ((collectTracks colW).take 1) ∧
    download_collection cAtW dlW colW =
      [{ provider_id := "yt", item_title := "a", files := [], warnings := [] }] := by
  have h := C5_theorem cAtW dlW colW 1 (by decide)
    (fun j h1 h2 => by
      have hj : j = 1 := by omega
      subst hj
      rfl)
    (fun _ => rfl)
  exact ⟨h, by rw [h]; decide⟩

/-- Claim C6: provider lookup returns the first provider in registration
order whose can_handle yields True; a can_handle that returns False or raises
(modelled none) is skipped and the scan continues; when no provider matches,
the raised error carries the sorted list of all registered identifiers, a
permutation of the registry's keys. -/
theorem C6_theorem :
    (∀ (k : String) (p : Provider) (rest : Registry) (source : String),
      p.canHandle source = some true →
      find_provider_for_source ((k, p) :: rest) source = .ok p) ∧
    (∀ (k : String) (p : Provider) (rest : Registry) (source : String),
      p.canHandle source = some false ∨ p.canHandle source = none →
      findAux source ((k, p) :: rest) = findAux source rest) ∧
    (∀ (reg : Registry) (source : String),
      (∀ pr ∈ reg, (Prod.snd pr).canHandle source ≠ some true) →
      find_provider_for_source reg source = .error (.noProvider (sortKeys reg)) ∧
      (sortKeys reg).Perm (reg.map Prod.fst)) := by
  refine ⟨?_, ?_, ?_⟩
  · intro k p rest source h
    simp [find_provider_for_source, findAux, h]
  · intro k p rest source h
    rcases h with h | h <;> simp [findAux, h]
  · intro reg source h
    refine ⟨by simp [find_provider_for_source, findAux_none source reg h], ?_⟩
    exact List.perm_insertionSort _ _

/-- Claim C6, witness: the theorem applied to a matching provider, to a
raising provider that is skipped, and to a registry with no match whose
error lists both identifiers. -/
theorem C6_witness :
    find_provider_for_source [("b", provB)] "u" = .ok provB ∧
    findAux "u" [("a", provA), ("b", provB)] = findAux "u" [("b", provB)] ∧
    (find_provider_for_source [("f", provF), ("a", provA)] "u" =
        .error (.noProvider (sortKeys [("f", provF), ("a", provA)])) ∧
      (sortKeys [("f", provF), ("a", provA)]).Perm
        ([("f", provF), ("a", provA)].map Prod.fst)) := by
  refine ⟨C6_theorem.1 "b" provB [] "u" rfl, C6_theorem.2.1 "a" provA [("b", provB)] "u" (Or.inr rfl),
    C6_theorem.2.2 _ "u" ?_⟩
  intro pr hpr
  have hm : pr = ("f", provF) ∨ pr = ("a", provA) := by simpa using hpr
  rcases hm with h | h <;> subst h <;> simp [provF, provA]

/-- Claim C7: registering a provider whose (normalized) identifier is
already a key raises the duplicate-provider error and the registry after the
failed call is exactly the registry before it. -/
theorem C7_theorem (reg reg' : Registry) (p q : Provider)
    (h : register_provider reg p = (.ok (), reg')) (hq : normId q.id = normId p.id) :
    register_provider reg' q = (.error (.duplicate (normId q.id)), reg') :=
  register_duplicate_of_ok h hq

/-- Claim C7, witness: registering the YouTube provider and then a second
provider with the same identifier (different case) fails with the duplicate
error, leaving the one-entry registry unchanged. -/
theorem C7_witness :
    register_provider [("youtube", provY)] provY3 =
      (.error (.duplicate (normId provY3.id)), [("youtube", provY)]) :=
  C7_theorem [] [("youtube", provY)] provY provY3 rfl (by decide)

/-- Claim C8: a line containing the archive-skip phrase, in any letter case
and with any surrounding text, is classified with the already-downloaded
flag; and the flag in any returned run result equals the pure function of
the scanned lines alone (the scan takes no exit status), so the detection is
independent of the process exit status. -/
theorem C8_theorem :
    (∀ (pre mid post : Line), lowerLine mid = archPhrase1 →
      lineAlreadyFlag (pre ++ mid ++ post) = true) ∧
    (∀ (outLines : List Line) (rc : Int) (cancelAt : ℕ → Bool) (evs : List RunnerEvent)
        (res : YtDlpRunResult),
      run_ytdlp true outLines rc cancelAt = (evs, .ok res) →
      res.already_downloaded = (scanLoop cancelAt 0 outLines initScanState).alreadyDownloaded) := by
  constructor
  · intro pre mid post hmid
    have harch : containsL archPhrase1 (lowerLine (pre ++ (mid ++ post))) = true := by
      rw [show lowerLine (pre ++ (mid ++ post)) = lowerLine pre ++ (lowerLine mid ++ lowerLine post)
            from by simp [lowerLine], hmid]
      exact containsL_append_self _ _ _
    simp [lineAlreadyFlag, archiveSearch, harch]
  · intro L rc cAt evs res h
    simp only [run_ytdlp, Bool.not_true, Bool.false_eq_true, if_false] at h
    by_cases hc : (scanLoop cAt 0 L initScanState).cancelled
    · rw [if_pos hc] at h
      injection h with h1 h2
      injection h2 with h3
      subst h3
      rfl
    · rw [if_neg hc] at h
      by_cases hr : (rc != 0) = true
      · rw [if_pos hr] at h
        injection h with h1 h2
        exact absurd h2 (by simp)
      · rw [if_neg hr] at h
        injection h with h1 h2
        injection h2 with h3
        subst h3
        rfl

/-- Claim C8, witness: the theorem applied to a mixed-case archive-skip line
with surrounding text, and to a concrete zero-exit run over that line whose
returned result carries the flag. -/
theorem C8_witness :
    lineAlreadyFlag (c8pre ++ c8mid ++ c8post) = true ∧
    (YtDlpRunResult.mk 0 [] [c8line] true false).already_downloaded =
      (scanLoop noCancel 0 [c8line] initScanState).alreadyDownloaded := by
  constructor
  · exact C8_theorem.1 c8pre c8mid c8post (by decide)
  · exact C8_theorem.2 [c8line] 0 noCancel _ _ rfl

/-- Claim C9: the clamp never takes effect on the delivered event.  An event
carrying local fraction 3/2 is forwarded unchanged by the proxy (the clamped
update dies with the absent model_copy), so the fraction delivered to the
callback lies outside [0,1]; the clamp expression of the dead branch would
have capped it at 1. -/
theorem C9_theorem :
    progress_proxy 1 1 evOver = evOver ∧
    evOver.progress = some (3/2 : ℚ) ∧
    ¬ ((3/2 : ℚ) ≤ 1) ∧
    clamp01 (3/2) = 1 :=
  ⟨rfl, rfl, by norm_num, by norm_num [clamp01]⟩

/-- Claim C10: registration stores the identifier stripped and lowercased as
the key; lookup normalizes its argument the same way, so any case or
surrounding-whitespace variant of a registered identifier resolves to the
registered provider; and a second registration whose identifier normalizes to
the same key fails as a duplicate, leaving the registry unchanged. -/
theorem C10_theorem :
    (∀ (reg reg' : Registry) (p : Provider), register_provider reg p = (.ok (), reg') →
      reg'.map Prod.fst = reg.map Prod.fst ++ [normId p.id]) ∧
    (∀ (reg reg' : Registry) (p : Provider) (v : String),
      register_provider reg p = (.ok (), reg') → normId v = normId p.id →
      get_provider reg' v = .ok p) ∧
    (∀ (reg reg' : Registry) (p q : Provider),
      register_provider reg p = (.ok (), reg') → normId q.id = normId p.id →
      register_provider reg' q = (.error (.duplicate (normId q.id)), reg')) := by
  refine ⟨?_, ?_, ?_⟩
  · intro reg reg' p h
    obtain ⟨-, -, h3⟩ := register_ok_inv h
    subst h3
    simp
  · intro reg reg' p v h hv
    obtain ⟨-, h2, h3⟩ := register_ok_inv h
    subst h3
    simp [get_provider, hv, lookupReg_append_fresh reg _ p h2]
  · intro reg reg' p q h hq
    exact register_duplicate_of_ok h hq

/-- Claim C10, witness: registering id "YouTube" stores key "youtube";
looking up a spaced mixed-case variant succeeds; registering a
whitespace-and-case variant fails as a duplicate with the registry
unchanged. -/
theorem C10_witness :
    ([("youtube", provY)].map Prod.fst = ([] : Registry).map Prod.fst ++ [normId provY.id]) ∧
    get_provider [("youtube", provY)] "  youTUBE " = .ok provY ∧
    register_provider [("youtube", provY)] provY2 =
      (.error (.duplicate (normId provY2.id)), [("youtube", provY)]) :=
  ⟨C10_theorem.1 [] _ provY rfl, C10_theorem.2.1 [] _ provY "  youTUBE " rfl (by decide),
    C10_theorem.2.2 [] _ provY provY2 rfl (by decide)⟩
